import Mathlib

/-!
# Verification of the ArbGUI data-mapping and refresh-cache core

Shallow embedding of the logic of `streamlit_app.py` and `scripts/check_api.py`:
the contract validator (`ensure_keys`), the JSON fetch helpers (`request_json`,
`fetch_json`), the opportunity row mapper (`build_opportunity_rows` with its
`min`-availability policy), the nearest-price-level selection, the
generation-stamped session cache, and the timestamp formatter.

Python values parsed from JSON are modelled by the inductive `Py`; numbers are
modelled by exact rationals (the claims under study concern comparison, `min`,
presence/absence and control flow, none of which depends on binary float
artifacts).  Python exceptions are modelled by `Except PyExn`.
-/

set_option maxHeartbeats 1000000
set_option maxRecDepth 8192

/-- A Python value as produced by `json.loads` (plus `None` for absent data).
JSON `null` and Python `None` are the same runtime value, hence one constructor. -/
inductive Py where
  | none
  | bool (b : Bool)
  | num (q : ℚ)
  | str (s : String)
  | list (xs : List Py)
  | dict (kvs : List (String × Py))

/-- Python exceptions that the embedded code can raise. -/
inductive PyExn where
  | valueError
  | typeError
  | attributeError
  | urlError
deriving DecidableEq, Repr

/-- Python truthiness (`bool(x)`), as used by `if x and y` guards. -/
def Py.truthy : Py → Bool
  | .none => false
  | .bool b => b
  | .num q => q != 0
  | .str s => s != ""
  | .list xs => !xs.isEmpty
  | .dict kvs => !kvs.isEmpty

/-- `isinstance(x, (int, float))`.  Python `bool` is a subclass of `int`. -/
def toNum? : Py → Option ℚ
  | .num q => some q
  | .bool b => some (if b then 1 else 0)
  | _ => Option.none

def isDict : Py → Bool
  | .dict _ => true
  | _ => false

def isList : Py → Bool
  | .list _ => true
  | _ => false

/-- A field value that is either a number or `None` (the well-typed shape of
`OpportunityRaw` numeric fields). -/
def numOrNone : Py → Bool
  | .num _ => true
  | .none => true
  | _ => false

/-- Association-list lookup, modelling `dict.get(k)` / `dict[k]`
(Python dict keys are unique; first match wins). -/
def dget {α : Type} : List (String × α) → String → Option α
  | [], _ => Option.none
  | kv :: rest, k => if kv.1 = k then some kv.2 else dget rest k

/-- Association-list store, modelling `dict[k] = v`: update in place when the
key exists, append otherwise (insertion order preserved). -/
def dset {α : Type} : List (String × α) → String → α → List (String × α)
  | [], k, v => [(k, v)]
  | kv :: rest, k, v => if kv.1 = k then (k, v) :: rest else kv :: dset rest k v

/-- `d.get(k, default)`: the stored value when the key is present (even when
that value is `None`), the default otherwise. -/
def pyGet (kvs : List (String × Py)) (k : String) (d : Py) : Py :=
  match dget kvs k with
  | some v => v
  | Option.none => d

/-- Python `min(a, b)`: returns `b` only when `b < a`, so the FIRST argument is
kept on ties.  Defined for numbers (with `bool` coercion) and for two strings;
other combinations raise `TypeError`.  (Python's lexicographic comparison of
lists is not modelled: no call site in this code reaches it.) -/
def pyMin (a b : Py) : Except PyExn Py :=
  match toNum? a, toNum? b with
  | some x, some y => .ok (if y < x then b else a)
  | _, _ =>
    match a, b with
    | .str s, .str t => .ok (.str (if t < s then t else s))
    | _, _ => .error .typeError

/-- Python `a * b` restricted to numbers (with `bool` coercion); any other
combination raises `TypeError`.  (String repetition by an `int` is not
modelled: no call site in this code reaches it.) -/
def pyMulQ (a b : Py) : Except PyExn ℚ :=
  match toNum? a, toNum? b with
  | some x, some y => .ok (x * y)
  | _, _ => .error .typeError

/-- Round to the nearest integer, ties to even (Python's `round`). -/
def roundHalfEven (q : ℚ) : ℤ :=
  let f := ⌊q⌋
  let frac := q - f
  if frac < 1/2 then f
  else if 1/2 < frac then f + 1
  else if f % 2 = 0 then f else f + 1

/-- Python `round(q, n)` for `n ≥ 0` decimal digits, on exact rationals. -/
def pyRound (q : ℚ) (n : ℕ) : ℚ :=
  (roundHalfEven (q * 10 ^ n) : ℚ) / 10 ^ n

/-- Python `int(q)`: truncation toward zero. -/
def truncQ (q : ℚ) : ℤ :=
  if 0 ≤ q then ⌊q⌋ else ⌈q⌉

/-! ## ContractValidator — `scripts/check_api.py` -/

/-- Does the character list `s` start with `pat`? -/
def headMatches : List Char → List Char → Bool
  | [], _ => true
  | _ :: _, [] => false
  | a :: as, b :: bs => a = b && headMatches as bs

/-- Is `pat` a contiguous substring of `s` (Python `pat in s` for strings)? -/
def hasSub (pat : List Char) : List Char → Bool
  | [] => headMatches pat []
  | c :: rest => headMatches pat (c :: rest) || hasSub pat rest

/-- Python `x == k` where `k` is a `str`: only another equal `str` compares
equal (cross-type `==` is `False`, never an error). -/
def pyEqStr (x : Py) (k : String) : Bool :=
  match x with
  | .str t => t = k
  | _ => false

/-- Python `k in obj` for a `str` key `k`: key membership for a dict, element
membership for a list, substring for a str; `TypeError` otherwise. -/
def pyContains (obj : Py) (k : String) : Except PyExn Bool :=
  match obj with
  | .dict kvs => .ok (kvs.any (fun kv => kv.1 = k))
  | .list xs => .ok (xs.any (fun x => pyEqStr x k))
  | .str s => .ok (hasSub k.toList s.toList)
  | _ => .error .typeError

/-- `ensure_keys(obj, keys)` (check_api.py, lines 25-27):
`[k for k in keys if k not in obj]`. -/
def ensure_keys (obj : Py) : List String → Except PyExn (List String)
  | [] => .ok []
  | k :: rest => do
    let c ← pyContains obj k
    let tail ← ensure_keys obj rest
    .ok (if c then tail else k :: tail)

/-- The record-validation pattern at the checker's call sites (check_api.py,
line 85 and analogues): `ensure_keys(d, required) if isinstance(d, dict) else
required`. -/
def record_missing (d : Py) (required : List String) : Except PyExn (List String) :=
  if isDict d then ensure_keys d required else .ok required

/-! ## RemoteFetcher

The network is an external collaborator; one `urlopen` call is summarised by an
`HttpOutcome`: the response completed (any status), raised `HTTPError`, or
raised a transport-level `URLError` (DNS failure, connection refused, timeout).
JSON parsing (`json.loads`, standard library) is passed in as a function
`parse`; `parse body = none` models a `ValueError` on a malformed body. -/

inductive HttpOutcome where
  | success (status : ℕ) (body : String)
  | httpError (code : ℕ) (body : Option String)
  | urlError
deriving DecidableEq

/-- Real HTTP responses carry a status code of at least 100. -/
def httpWf : HttpOutcome → Prop
  | .success st _ => 100 ≤ st
  | .httpError code _ => 100 ≤ code
  | .urlError => True

/-- `request_json` (streamlit_app.py, lines 148-158).  `HTTPError` yields
`(code, None)`; `URLError` and `ValueError` (malformed JSON) yield `(0, None)`;
otherwise the status and parsed body (`None` for an empty body). -/
def request_json (parse : String → Option Py) : HttpOutcome → ℕ × Py
  | .success st body =>
    if body = "" then (st, Py.none)
    else
      match parse body with
      | some v => (st, v)
      | Option.none => (0, Py.none)
  | .httpError code _ => (code, Py.none)
  | .urlError => (0, Py.none)

/-- `fetch_json` (check_api.py, lines 13-22).  Only `HTTPError` is caught
(returning the raw error body text); a transport-level `URLError` or a
`ValueError` from `json.loads` propagates to the caller. -/
def fetch_json (parse : String → Option Py) : HttpOutcome → Except PyExn (ℕ × Py)
  | .success st body =>
    if body = "" then .ok (st, Py.none)
    else
      match parse body with
      | some v => .ok (st, v)
      | Option.none => .error .valueError
  | .httpError code body => .ok (code, .str (body.getD ""))
  | .urlError => .error .urlError

/-! ## Timestamp formatting — `format_time_label`

`datetime.fromisoformat`, `astimezone` and `strftime` are Python standard
library (external to the repository); they are modelled concretely below.  The
parser covers the ISO-8601 profile relevant here
(`YYYY-MM-DD[<sep>HH[:MM[:SS]][.ffffff][±HH:MM]]`, any single separator
character, as in CPython ≥ 3.11); `fromisoformat`'s only failure mode is
`ValueError`, which the model preserves.  An instant is stored as seconds since
1970-01-01 together with an optional UTC offset in minutes (naive values store
their wall-clock reading). -/

structure PyDatetime where
  sec : ℤ
  tz : Option ℤ
deriving DecidableEq

def digit2? (a b : Char) : Option ℕ :=
  if a.isDigit && b.isDigit then some ((a.toNat - 48) * 10 + (b.toNat - 48))
  else Option.none

def digit4? (a b c d : Char) : Option ℕ :=
  match digit2? a b, digit2? c d with
  | some hi, some lo => some (hi * 100 + lo)
  | _, _ => Option.none

def isLeapYear (y : ℕ) : Bool :=
  (y % 4 = 0 && y % 100 ≠ 0) || y % 400 = 0

def daysInMonth (y m : ℕ) : ℕ :=
  if m = 2 then (if isLeapYear y then 29 else 28)
  else if m = 4 ∨ m = 6 ∨ m = 9 ∨ m = 11 then 30
  else 31

/-- Days from 1970-01-01 to the civil date `y-m-d` (proleptic Gregorian). -/
def daysFromCivil (y : ℤ) (m d : ℕ) : ℤ :=
  let yy : ℤ := if m ≤ 2 then y - 1 else y
  let era : ℤ := Int.fdiv yy 400
  let yoe : ℕ := (yy - era * 400).toNat
  let mp : ℕ := if 2 < m then m - 3 else m + 9
  let doy : ℕ := (153 * mp + 2) / 5 + (d - 1)
  let doe : ℕ := yoe * 365 + yoe / 4 - yoe / 100 + doy
  era * 146097 + (doe : ℤ) - 719468

/-- Civil date `(y, m, d)` of a day count from 1970-01-01. -/
def civilFromDays (z0 : ℤ) : ℤ × ℕ × ℕ :=
  let z := z0 + 719468
  let era : ℤ := Int.fdiv z 146097
  let doe : ℕ := (z - era * 146097).toNat
  let yoe : ℕ := (doe - doe / 1460 + doe / 36524 - doe / 146096) / 365
  let doy : ℕ := doe - (365 * yoe + yoe / 4 - yoe / 100)
  let mp : ℕ := (5 * doy + 2) / 153
  let dd : ℕ := doy - (153 * mp + 2) / 5 + 1
  let m : ℕ := if mp < 10 then mp + 3 else mp - 9
  (((yoe : ℤ) + era * 400) + (if m ≤ 2 then 1 else 0), m, dd)

/-- Parse `HH[:MM[:SS]]`; returns the fields and the unconsumed tail. -/
def parseTimeFields : List Char → Option (ℕ × ℕ × ℕ × List Char)
  | h1 :: h2 :: rest =>
    match digit2? h1 h2 with
    | Option.none => Option.none
    | some hh =>
      if 23 < hh then Option.none
      else
        match rest with
        | ':' :: m1 :: m2 :: rest2 =>
          (match digit2? m1 m2 with
           | Option.none => Option.none
           | some mm =>
             if 59 < mm then Option.none
             else
               match rest2 with
               | ':' :: s1 :: s2 :: rest3 =>
                 (match digit2? s1 s2 with
                  | Option.none => Option.none
                  | some ss =>
                    if 59 < ss then Option.none else some (hh, mm, ss, rest3))
               | other => some (hh, mm, 0, other))
        | other => some (hh, 0, 0, other)
  | _ => Option.none

/-- Consume an optional fractional-seconds group `('.'|',') digits+`
(the value is ignored: the display formats drop sub-second precision). -/
def dropFrac : List Char → Option (List Char)
  | [] => some []
  | c :: rest =>
    if c = '.' ∨ c = ',' then
      match rest with
      | d :: _ => if d.isDigit then some (rest.dropWhile Char.isDigit) else Option.none
      | [] => Option.none
    else some (c :: rest)

/-- Parse a trailing UTC offset `±HH:MM` (the empty tail means naive). -/
def parseOffset : List Char → Option (Option ℤ)
  | [] => some Option.none
  | sign :: h1 :: h2 :: ':' :: m1 :: m2 :: [] =>
    if sign = '+' ∨ sign = '-' then
      match digit2? h1 h2, digit2? m1 m2 with
      | some oh, some om =>
        if 23 < oh ∨ 59 < om then Option.none
        else some (some ((if sign = '-' then -1 else 1) * ((oh : ℤ) * 60 + om)))
      | _, _ => Option.none
    else Option.none
  | _ => Option.none

/-- Model of `datetime.fromisoformat` on the relevant ISO-8601 profile. -/
def parseIso (s : String) : Option PyDatetime :=
  match s.toList with
  | y1 :: y2 :: y3 :: y4 :: '-' :: mo1 :: mo2 :: '-' :: dd1 :: dd2 :: rest =>
    match digit4? y1 y2 y3 y4, digit2? mo1 mo2, digit2? dd1 dd2 with
    | some y, some mo, some dd =>
      if y < 1 ∨ 9999 < y ∨ mo < 1 ∨ 12 < mo ∨ dd < 1 ∨ daysInMonth y mo < dd then
        Option.none
      else
        let mk : ℕ → ℕ → ℕ → Option ℤ → PyDatetime := fun hh mm ss off =>
          let wall : ℤ :=
            daysFromCivil (y : ℤ) mo dd * 86400 + (hh : ℤ) * 3600 + (mm : ℤ) * 60 + ss
          match off with
          | some o => ⟨wall - o * 60, some o⟩
          | Option.none => ⟨wall, Option.none⟩
        match rest with
        | [] => some (mk 0 0 0 Option.none)
        | _sep :: timeCs =>
          match parseTimeFields timeCs with
          | Option.none => Option.none
          | some (hh, mm, ss, rest2) =>
            match dropFrac rest2 with
            | Option.none => Option.none
            | some rest3 =>
              match parseOffset rest3 with
              | Option.none => Option.none
              | some off => some (mk hh mm ss off)
    | _, _, _ => Option.none
  | _ => Option.none

/-- `fromisoformat` raises `ValueError` on any string it cannot parse. -/
def fromisoformatE (s : String) : Except PyExn PyDatetime :=
  match parseIso s with
  | some dt => .ok dt
  | Option.none => .error .valueError

/-- `dt.astimezone(tz)`: the instant is preserved, the offset replaced.
(Only reached on tz-aware values in `format_time_label`.) -/
def astimezone (dt : PyDatetime) (off : ℤ) : PyDatetime :=
  { dt with tz := some off }

def pad2 (n : ℕ) : String :=
  if n < 10 then "0" ++ toString n else toString n

def pad4 (n : ℕ) : String :=
  if n < 10 then "000" ++ toString n
  else if n < 100 then "00" ++ toString n
  else if n < 1000 then "0" ++ toString n
  else toString n

/-- `dt.strftime("%Y-%m-%d %H:%M:%S")` / `dt.strftime("%H:%M:%S")` on the
wall-clock reading of `dt`. -/
def strftime (dt : PyDatetime) (withDate : Bool) : String :=
  let localSec := dt.sec + (dt.tz.getD 0) * 60
  let days := Int.fdiv localSec 86400
  let sod := (localSec - days * 86400).toNat
  let c := civilFromDays days
  let timeStr := pad2 (sod / 3600) ++ ":" ++ pad2 (sod % 3600 / 60) ++ ":" ++ pad2 (sod % 60)
  if withDate then
    pad4 c.1.toNat ++ "-" ++ pad2 c.2.1 ++ "-" ++ pad2 c.2.2 ++ " " ++ timeStr
  else timeStr

/-- Strip `pat` off the front of a character list, returning the remainder. -/
def stripPre : List Char → List Char → Option (List Char)
  | [], s => some s
  | _ :: _, [] => Option.none
  | a :: as, b :: bs => if a = b then stripPre as bs else Option.none

/-- Left-to-right, non-overlapping replacement with a step budget (the budget
`s.length` is enough: every step consumes at least one character). -/
def replaceFuel (pat rep : List Char) : ℕ → List Char → List Char
  | 0, s => s
  | _, [] => []
  | fuel + 1, c :: rest =>
    match stripPre pat (c :: rest) with
    | some remainder => rep ++ replaceFuel pat rep fuel remainder
    | Option.none => c :: replaceFuel pat rep fuel rest

/-- Model of Python `s.replace(pat, rep)` (standard library) for a non-empty
pattern: replace every non-overlapping occurrence, scanning left to right. -/
def strReplace (s pat rep : String) : String :=
  String.mk (replaceFuel pat.toList rep.toList s.toList.length s.toList)

/-- The body of `format_time_label` (streamlit_app.py, lines 203-212) before
the `except ValueError` handler: replace a `Z` suffix, parse, default a naive
value to UTC, convert to UTC+9, format. -/
def format_time_label_run (timestamp : String) (with_date : Bool) : Except PyExn String := do
  let ts := strReplace timestamp "Z" "+00:00"
  let dt ← fromisoformatE ts
  let dt := match dt.tz with
    | Option.none => { dt with tz := some 0 }
    | some _ => dt
  .ok (strftime (astimezone dt 540) with_date)

/-- `format_time_label` with its `except ValueError: return timestamp` handler;
any other exception class would propagate. -/
def format_time_labelE (timestamp : String) (with_date : Bool) : Except PyExn String :=
  match format_time_label_run timestamp with_date with
  | .error .valueError => .ok timestamp
  | r => r

/-- The total reading of `format_time_label` used by the row mapper (justified
by the theorem that `format_time_labelE` never propagates an exception). -/
def format_time_label (timestamp : String) (with_date : Bool) : String :=
  match format_time_labelE timestamp with_date with
  | .ok r => r
  | .error _ => timestamp

/-! ## RowMapper — `build_opportunity_rows` (streamlit_app.py, lines 215-250) -/

/-- Python `str(x)` for the values reaching `format_time_label`.  (The exact
`repr` of numbers and containers is not meaningful to any claim; timestamps in
the data are strings or absent.) -/
def pyStr : Py → String
  | .str s => s
  | .none => "None"
  | .bool b => if b then "True" else "False"
  | .num q => toString q
  | .list _ => "<list>"
  | .dict _ => "<dict>"

/-- Line 220: `min(buy_amount, sell_amount) if buy_amount and sell_amount else
None` — the conservative availability policy (zero or missing means
unavailable, not zero). -/
def minAvailable (buy_amount sell_amount : Py) : Except PyExn Py :=
  if buy_amount.truthy && sell_amount.truthy then pyMin buy_amount sell_amount
  else .ok Py.none

/-- Lines 226-230: `round(min_amount * min(buy_price, sell_price), 0) if
min_amount and buy_price and sell_price else None`. -/
def estSizeJpy (min_amount buy_price sell_price : Py) : Except PyExn Py :=
  if min_amount.truthy && buy_price.truthy && sell_price.truthy then
    match pyMin buy_price sell_price with
    | .error e => .error e
    | .ok m =>
      match pyMulQ min_amount m with
      | .error e => .error e
      | .ok q => .ok (Py.num (pyRound q 0))
  else .ok Py.none

/-- Line 231: `round(spread_jpy * min_amount, 2) if min_amount and spread_jpy
else None`. -/
def expectedProfitJpy (spread_jpy min_amount : Py) : Except PyExn Py :=
  if min_amount.truthy && spread_jpy.truthy then
    match pyMulQ spread_jpy min_amount with
    | .error e => .error e
    | .ok q => .ok (Py.num (pyRound q 2))
  else .ok Py.none

/-- Line 224: `round(spread_pct * 100, 2) if isinstance(spread_pct, (int,
float)) else None`. -/
def bpsDisplay (spread_pct : Py) : Py :=
  match toNum? spread_pct with
  | some q => Py.num (pyRound (q * 100) 2)
  | Option.none => Py.none

/-- Line 242: `int(est_size_jpy) if isinstance(est_size_jpy, (int, float))
else "—"`. -/
def estDisplay (est_size_jpy : Py) : Py :=
  match toNum? est_size_jpy with
  | some q => Py.num ((truncQ q : ℤ) : ℚ)
  | Option.none => Py.str "—"

/-- Line 243: `expected_profit_jpy if expected_profit_jpy is not None else
"—"`. -/
def profitDisplay (expected_profit_jpy : Py) : Py :=
  match expected_profit_jpy with
  | Py.none => Py.str "—"
  | p => p

/-- One display row (the dict built at lines 232-249; field names follow the
dict keys: `時刻, 通貨, 買い取引所, 売り取引所, 買値, 売値, スプレッド(bps),
スプレッド(円), 想定サイズ, 推定利益, _buy_exchange, _sell_exchange,
_buy_price, _sell_price`). -/
structure OppRow where
  time_label : String
  symbol : Py
  buy_exchange_disp : Py
  sell_exchange_disp : Py
  buy_price : Py
  sell_price : Py
  spread_bps : Py
  spread_jpy : Py
  est_size : Py
  profit : Py
  h_buy_exchange : Py
  h_sell_exchange : Py
  h_buy_price : Py
  h_sell_price : Py

/-- The body of the `for opp in opportunities` loop: derive each field of one
row.  `.get` on a non-dict raises `AttributeError`. -/
def buildRow (opp : Py) : Except PyExn OppRow :=
  match opp with
  | .dict kvs =>
    let buy_amount := pyGet kvs "buy_available_amount" Py.none
    let sell_amount := pyGet kvs "sell_available_amount" Py.none
    match minAvailable buy_amount sell_amount with
    | .error e => .error e
    | .ok min_amount =>
      let buy_price := pyGet kvs "buy_price" Py.none
      let sell_price := pyGet kvs "sell_price" Py.none
      let spread_pct := pyGet kvs "spread_pct" Py.none
      let spread_bps : Py := bpsDisplay spread_pct
      let spread_jpy := pyGet kvs "spread_jpy" Py.none
      match estSizeJpy min_amount buy_price sell_price with
      | .error e => .error e
      | .ok est_size_jpy =>
        match expectedProfitJpy spread_jpy min_amount with
        | .error e => .error e
        | .ok expected_profit_jpy =>
          .ok
            { time_label := format_time_label (pyStr (pyGet kvs "timestamp" (Py.str ""))) false
              symbol := pyGet kvs "symbol" (Py.str "")
              buy_exchange_disp := pyGet kvs "buy_exchange" (Py.str "")
              sell_exchange_disp := pyGet kvs "sell_exchange" (Py.str "")
              buy_price := buy_price
              sell_price := sell_price
              spread_bps := spread_bps
              spread_jpy := spread_jpy
              est_size := estDisplay est_size_jpy
              profit := profitDisplay expected_profit_jpy
              h_buy_exchange := pyGet kvs "buy_exchange" Py.none
              h_sell_exchange := pyGet kvs "sell_exchange" Py.none
              h_buy_price := buy_price
              h_sell_price := sell_price }
  | _ => .error .attributeError

/-- `build_opportunity_rows`: one row appended per record, in input order; an
exception raised for any record aborts the whole mapping. -/
def build_opportunity_rows : List Py → Except PyExn (List OppRow)
  | [] => .ok []
  | opp :: rest => do
    let row ← buildRow opp
    let rows ← build_opportunity_rows rest
    .ok (row :: rows)

/-- Well-typed `OpportunityRaw` record: a mapping whose amount/price/spread
fields are numbers or absent (the shape §3 of the spec assigns them). -/
def oppWf : Py → Bool
  | .dict kvs =>
    numOrNone (pyGet kvs "buy_available_amount" Py.none)
      && numOrNone (pyGet kvs "sell_available_amount" Py.none)
      && numOrNone (pyGet kvs "buy_price" Py.none)
      && numOrNone (pyGet kvs "sell_price" Py.none)
      && numOrNone (pyGet kvs "spread_jpy" Py.none)
  | _ => false

/-! ## Nearest price level (streamlit_app.py, lines 381-387)

`min(range(len(levels)), key=lambda i: abs(levels[i].get("price", 0) - target))`
over the list of level prices.  Python's `min` keeps the first minimum found in
a left-to-right scan. -/

/-- The accumulator loop of Python `min(..., key=key)`: replace the current
best only on strict improvement. -/
def minGo (key : ℕ → ℚ) : ℕ → List ℕ → ℕ
  | b, [] => b
  | b, i :: rest => minGo key (if key i < key b then i else b) rest

/-- `min(indexList, key=key)`; `None` on an empty sequence (Python raises, but
the call sites guard with `if asks:` / `if bids:`). -/
def pyMinIndex (key : ℕ → ℚ) : List ℕ → Option ℕ
  | [] => Option.none
  | i :: rest => some (minGo key i rest)

/-- Python `abs` on an exact rational. -/
def ratAbs (q : ℚ) : ℚ := if q < 0 then -q else q

/-- The highlight-index computation: no result when the target price is absent
(`highlight_price is None`) or the level list is empty; otherwise the index of
the level whose price is nearest to the target. -/
def nearestLevel (prices : List ℚ) (target : Option ℚ) : Option ℕ :=
  match target with
  | Option.none => Option.none
  | some t => pyMinIndex (fun i => ratAbs (prices.getD i 0 - t)) (List.range prices.length)

/-! ## RefreshCache (streamlit_app.py, lines 515-523 and 543-549)

The session holds one value dict and one generation dict per cache.  The access
pattern `if ver.get(key) != tick: cache[key] = compute(); ver[key] = tick` then
read `cache[key]` is captured as one operation that also reports how many times
the compute function ran (0 or 1). -/

structure Cache (α : Type) where
  vals : List (String × α)
  vers : List (String × ℤ)

def emptyCache (α : Type) : Cache α := ⟨[], []⟩

/-- `get_or_compute(key, generation, computeFn)`: recompute and restamp when
the stored generation is absent or differs; otherwise read the stored value
(`None` here models the impossible `KeyError`, excluded by the coupled-update
invariant). -/
def get_or_compute {α : Type} (c : Cache α) (k : String) (g : ℤ) (f : Unit → α) :
    Option α × Cache α × ℕ :=
  if dget c.vers k ≠ some g then
    let v := f ()
    (some v, ⟨dset c.vals k v, dset c.vers k g⟩, 1)
  else
    (dget c.vals k, c, 0)

/-! ## The contract checker run — `test_arbgui` / `main` (check_api.py) -/

/-- One `print_result` line: `[OK]`/`[NG]`, label, detail. -/
structure LogLine where
  ok : Bool
  label : String
  detail : String
deriving DecidableEq

def orderbook_required : List String :=
  ["exchange", "symbol", "timestamp", "bids", "asks", "best_bid", "best_ask",
   "mid_price", "spread"]

def opportunities_required : List String :=
  ["timestamp", "base_symbol", "buy_exchange", "sell_exchange", "buy_price",
   "sell_price", "spread_bps", "estimated_size_jpy", "expected_profit_jpy"]

def portfolio_required : List String :=
  ["updated_at", "total_value_jpy", "exchanges"]

/-- The orderbook block (lines 47-65): failure line on non-200 or non-dict,
otherwise a keys line; one failure counted per failed check. -/
def ob_check (st : ℕ) (data : Py) : Except PyExn (ℕ × LogLine) :=
  if st ≠ 200 || !isDict data then
    .ok (1, ⟨false, "orderbook latest", "status=" ++ toString st⟩)
  else do
    let missing ← ensure_keys data orderbook_required
    .ok (if missing.isEmpty then 0 else 1,
         ⟨missing.isEmpty, "orderbook latest keys", String.intercalate "," missing⟩)

/-- The opportunities block (lines 67-89): `if data:` distinguishes an empty
list (passes) from a first-record key check. -/
def opp_check (st : ℕ) (data : Py) : Except PyExn (ℕ × LogLine) :=
  if st ≠ 200 || !isList data then
    .ok (1, ⟨false, "opportunities latest", "status=" ++ toString st⟩)
  else
    match data with
    | .list [] => .ok (0, ⟨true, "opportunities latest", "empty list"⟩)
    | .list (x :: _) => do
      let missing ← record_missing x opportunities_required
      .ok (if missing.isEmpty then 0 else 1,
           ⟨missing.isEmpty, "opportunities keys", String.intercalate "," missing⟩)
    | _ => .ok (1, ⟨false, "opportunities latest", "status=" ++ toString st⟩)

/-- The portfolio block (lines 91-100). -/
def pf_check (st : ℕ) (data : Py) : Except PyExn (ℕ × LogLine) :=
  if st ≠ 200 || !isDict data then
    .ok (1, ⟨false, "portfolio", "status=" ++ toString st⟩)
  else do
    let missing ← ensure_keys data portfolio_required
    .ok (if missing.isEmpty then 0 else 1,
         ⟨missing.isEmpty, "portfolio keys", String.intercalate "," missing⟩)

/-- `test_arbgui(base_url, exchange, symbol)` over the three endpoint outcomes,
returning the printed lines and (unless an exception propagates) the cumulative
failure count.  An uncaught exception carries off the run: the lines printed so
far remain, the remaining checks never execute. -/
def test_arbgui (parse : String → Option Py) (obO oppO pfO : HttpOutcome) :
    List LogLine × Except PyExn ℕ :=
  match fetch_json parse obO with
  | .error e => ([], .error e)
  | .ok (st1, d1) =>
    match ob_check st1 d1 with
    | .error e => ([], .error e)
    | .ok (f1, l1) =>
      match fetch_json parse oppO with
      | .error e => ([l1], .error e)
      | .ok (st2, d2) =>
        match opp_check st2 d2 with
        | .error e => ([l1], .error e)
        | .ok (f2, l2) =>
          match fetch_json parse pfO with
          | .error e => ([l1, l2], .error e)
          | .ok (st3, d3) =>
            match pf_check st3 d3 with
            | .error e => ([l1, l2], .error e)
            | .ok (f3, l3) => ([l1, l2, l3], .ok (f1 + f2 + f3))

/-- `main` (lines 291-308): exit code 1 when any check failed, 0 otherwise; an
uncaught exception terminates the process (Python exits with status 1 via a
traceback, the summary line never prints). -/
def checker_exit (parse : String → Option Py) (obO oppO pfO : HttpOutcome) :
    Except PyExn ℕ :=
  match test_arbgui parse obO oppO pfO with
  | (_, .error e) => .error e
  | (_, .ok f) => .ok (if f ≠ 0 then 1 else 0)

/-! ## Shared lemmas -/

theorem dget_dset_self {α : Type} (d : List (String × α)) (k : String) (v : α) :
    dget (dset d k v) k = some v := by
  induction d with
  | nil => simp [dset, dget]
  | cons kv rest ih =>
    by_cases h : kv.1 = k <;> simp [dset, dget, h, ih]

theorem dget_dset_ne {α : Type} (d : List (String × α)) (k k' : String) (v : α)
    (h : k' ≠ k) : dget (dset d k v) k' = dget d k' := by
  induction d with
  | nil => simp [dset, dget, Ne.symm h]
  | cons kv rest ih =>
    by_cases hk : kv.1 = k
    · subst hk
      simp [dset, dget, Ne.symm h]
    · simp [dset, dget, hk, ih]

theorem numOrNone_iff (p : Py) :
    numOrNone p = true ↔ (∃ q, p = Py.num q) ∨ p = Py.none := by
  cases p <;> simp [numOrNone]

/-- `ensure_keys` on a mapping never raises and computes the order-preserving
filter of the required keys by key membership. -/
theorem ensure_keys_dict (kvs : List (String × Py)) (keys : List String) :
    ensure_keys (Py.dict kvs) keys =
      .ok (keys.filter (fun k => !kvs.any (fun kv => kv.1 = k))) := by
  induction keys with
  | nil => rfl
  | cons k rest ih =>
    simp only [ensure_keys, pyContains, ih, Except.bind, bind, List.filter]
    by_cases h : kvs.any (fun kv => kv.1 = k) = true <;> simp [h]

theorem minAvailable_none_left (b : Py) :
    minAvailable Py.none b = .ok Py.none := by
  simp [minAvailable, Py.truthy]

theorem minAvailable_none_right (a : Py) :
    minAvailable a Py.none = .ok Py.none := by
  simp [minAvailable, Py.truthy]

theorem minAvailable_num_num (x y : ℚ) :
    minAvailable (Py.num x) (Py.num y) =
      .ok (if x ≠ 0 ∧ y ≠ 0 then Py.num (min x y) else Py.none) := by
  by_cases hx : x = 0
  · simp [minAvailable, Py.truthy, hx]
  · by_cases hy : y = 0
    · simp [minAvailable, Py.truthy, hx, hy]
    · rcases le_or_lt x y with h | h
      · simp [minAvailable, Py.truthy, pyMin, toNum?, hx, hy, not_lt.mpr h,
          min_eq_left h]
      · simp [minAvailable, Py.truthy, pyMin, toNum?, hx, hy, h,
          min_eq_right (le_of_lt h)]

theorem estSizeJpy_not_avail (m p q : Py)
    (h : (m.truthy && p.truthy && q.truthy) = false) :
    estSizeJpy m p q = .ok Py.none := by
  simp [estSizeJpy, h]

theorem estSizeJpy_nums (m p q : ℚ) (hm : m ≠ 0) (hp : p ≠ 0) (hq : q ≠ 0) :
    estSizeJpy (Py.num m) (Py.num p) (Py.num q) =
      .ok (Py.num (pyRound (m * min p q) 0)) := by
  rcases le_or_lt p q with h | h
  · simp [estSizeJpy, Py.truthy, pyMin, pyMulQ, toNum?, hm, hp, hq,
      not_lt.mpr h, min_eq_left h]
  · simp [estSizeJpy, Py.truthy, pyMin, pyMulQ, toNum?, hm, hp, hq, h,
      min_eq_right (le_of_lt h)]

theorem expectedProfitJpy_not_avail (s m : Py)
    (h : (m.truthy && s.truthy) = false) :
    expectedProfitJpy s m = .ok Py.none := by
  simp [expectedProfitJpy, h]

theorem expectedProfitJpy_nums (s m : ℚ) (hs : s ≠ 0) (hm : m ≠ 0) :
    expectedProfitJpy (Py.num s) (Py.num m) =
      .ok (Py.num (pyRound (s * m) 2)) := by
  simp [expectedProfitJpy, Py.truthy, pyMulQ, toNum?, hs, hm]

theorem minAvailable_wf (a b : Py) (ha : numOrNone a = true) (hb : numOrNone b = true) :
    ∃ m, minAvailable a b = .ok m ∧ numOrNone m = true ∧
      (¬(a.truthy = true ∧ b.truthy = true) → m = Py.none) := by
  rcases (numOrNone_iff a).1 ha with ⟨x, rfl⟩ | rfl
  · rcases (numOrNone_iff b).1 hb with ⟨y, rfl⟩ | rfl
    · refine ⟨_, minAvailable_num_num x y, ?_, ?_⟩
      · by_cases h : x ≠ 0 ∧ y ≠ 0 <;> simp [h, numOrNone]
      · intro h
        have : ¬(x ≠ 0 ∧ y ≠ 0) := by
          simpa [Py.truthy] using h
        simp [this]
    · exact ⟨Py.none, minAvailable_none_right _, rfl, fun _ => rfl⟩
  · exact ⟨Py.none, minAvailable_none_left _, rfl, fun _ => rfl⟩

theorem num_of_truthy_numOrNone (p : Py) (hn : numOrNone p = true)
    (ht : p.truthy = true) : ∃ q, p = Py.num q ∧ q ≠ 0 := by
  rcases (numOrNone_iff p).1 hn with ⟨q, rfl⟩ | rfl
  · exact ⟨q, rfl, by simpa [Py.truthy] using ht⟩
  · simp [Py.truthy] at ht

theorem estSizeJpy_wf (m p q : Py) (hm : numOrNone m = true)
    (hp : numOrNone p = true) (hq : numOrNone q = true) :
    ∃ e, estSizeJpy m p q = .ok e ∧ numOrNone e = true ∧
      ((m.truthy && p.truthy && q.truthy) = false → e = Py.none) := by
  by_cases h : (m.truthy && p.truthy && q.truthy) = true
  · obtain ⟨hm', hp', hq'⟩ : m.truthy = true ∧ p.truthy = true ∧ q.truthy = true := by
      simpa [Bool.and_eq_true, and_assoc] using h
    obtain ⟨x, rfl, hx⟩ := num_of_truthy_numOrNone m hm hm'
    obtain ⟨y, rfl, hy⟩ := num_of_truthy_numOrNone p hp hp'
    obtain ⟨z, rfl, hz⟩ := num_of_truthy_numOrNone q hq hq'
    refine ⟨_, estSizeJpy_nums x y z hx hy hz, by simp [numOrNone], ?_⟩
    intro hfalse
    rw [h] at hfalse
    cases hfalse
  · have h' : (m.truthy && p.truthy && q.truthy) = false := by
      revert h
      cases m.truthy && p.truthy && q.truthy <;> simp
    exact ⟨Py.none, estSizeJpy_not_avail m p q h', rfl, fun _ => rfl⟩

theorem expectedProfitJpy_wf (s m : Py) (hs : numOrNone s = true)
    (hm : numOrNone m = true) :
    ∃ e, expectedProfitJpy s m = .ok e ∧
      ((m.truthy && s.truthy) = false → e = Py.none) := by
  by_cases h : (m.truthy && s.truthy) = true
  · obtain ⟨hm', hs'⟩ : m.truthy = true ∧ s.truthy = true := by
      simpa [Bool.and_eq_true] using h
    obtain ⟨x, rfl, hx⟩ := num_of_truthy_numOrNone s hs hs'
    obtain ⟨y, rfl, hy⟩ := num_of_truthy_numOrNone m hm hm'
    refine ⟨_, expectedProfitJpy_nums x y hx hy, ?_⟩
    intro hfalse
    rw [h] at hfalse
    cases hfalse
  · have h' : (m.truthy && s.truthy) = false := by
      revert h
      cases m.truthy && s.truthy <;> simp
    exact ⟨Py.none, expectedProfitJpy_not_avail s m h', fun _ => rfl⟩

/-- Unfolding `buildRow` once the three fallible derivations are resolved. -/
theorem buildRow_eq (kvs : List (String × Py)) (m e p : Py)
    (hm : minAvailable (pyGet kvs "buy_available_amount" Py.none)
            (pyGet kvs "sell_available_amount" Py.none) = .ok m)
    (he : estSizeJpy m (pyGet kvs "buy_price" Py.none)
            (pyGet kvs "sell_price" Py.none) = .ok e)
    (hp : expectedProfitJpy (pyGet kvs "spread_jpy" Py.none) m = .ok p) :
    buildRow (Py.dict kvs) =
      .ok
        { time_label := format_time_label (pyStr (pyGet kvs "timestamp" (Py.str ""))) false
          symbol := pyGet kvs "symbol" (Py.str "")
          buy_exchange_disp := pyGet kvs "buy_exchange" (Py.str "")
          sell_exchange_disp := pyGet kvs "sell_exchange" (Py.str "")
          buy_price := pyGet kvs "buy_price" Py.none
          sell_price := pyGet kvs "sell_price" Py.none
          spread_bps := bpsDisplay (pyGet kvs "spread_pct" Py.none)
          spread_jpy := pyGet kvs "spread_jpy" Py.none
          est_size := estDisplay e
          profit := profitDisplay p
          h_buy_exchange := pyGet kvs "buy_exchange" Py.none
          h_sell_exchange := pyGet kvs "sell_exchange" Py.none
          h_buy_price := pyGet kvs "buy_price" Py.none
          h_sell_price := pyGet kvs "sell_price" Py.none } := by
  unfold buildRow
  simp only [hm, he, hp]

theorem oppWf_fields (kvs : List (String × Py)) (h : oppWf (Py.dict kvs) = true) :
    numOrNone (pyGet kvs "buy_available_amount" Py.none) = true ∧
      numOrNone (pyGet kvs "sell_available_amount" Py.none) = true ∧
      numOrNone (pyGet kvs "buy_price" Py.none) = true ∧
      numOrNone (pyGet kvs "sell_price" Py.none) = true ∧
      numOrNone (pyGet kvs "spread_jpy" Py.none) = true := by
  simpa [oppWf, Bool.and_eq_true, and_assoc] using h

theorem buildRow_wf_ok (o : Py) (h : oppWf o = true) :
    ∃ row, buildRow o = .ok row := by
  cases o with
  | dict kvs =>
    obtain ⟨h1, h2, h3, h4, h5⟩ := oppWf_fields kvs h
    obtain ⟨m, hm, hmn, -⟩ := minAvailable_wf _ _ h1 h2
    obtain ⟨e, he, -, -⟩ := estSizeJpy_wf m _ _ hmn h3 h4
    obtain ⟨p, hp, -⟩ := expectedProfitJpy_wf _ m h5 hmn
    exact ⟨_, buildRow_eq kvs m e p hm he hp⟩
  | none => simp [oppWf] at h
  | bool b => simp [oppWf] at h
  | num q => simp [oppWf] at h
  | str s => simp [oppWf] at h
  | list xs => simp [oppWf] at h

theorem build_rows_wf (opps : List Py) (h : ∀ o ∈ opps, oppWf o = true) :
    ∃ rows, build_opportunity_rows opps = .ok rows ∧
      List.Forall₂ (fun o r => buildRow o = .ok r) opps rows := by
  induction opps with
  | nil => exact ⟨[], rfl, .nil⟩
  | cons o rest ih =>
    obtain ⟨row, hrow⟩ := buildRow_wf_ok o (h o (List.mem_cons_self o rest))
    obtain ⟨rows, hrows, hfa⟩ := ih (fun x hx => h x (List.mem_cons_of_mem _ hx))
    refine ⟨row :: rows, ?_, .cons hrow hfa⟩
    simp [build_opportunity_rows, hrow, hrows, Except.bind, bind]

/-- Invariants of the `min(..., key=...)` accumulator loop over a run of
consecutive indices `[s, s+m)` started from a best index `b < s`: the result
is the first index attaining the minimum key. -/
theorem minGo_range'_spec (key : ℕ → ℚ) :
    ∀ (m s b : ℕ), b < s →
      (minGo key b (List.range' s m) = b ∨
        (s ≤ minGo key b (List.range' s m) ∧ minGo key b (List.range' s m) < s + m)) ∧
      key (minGo key b (List.range' s m)) ≤ key b ∧
      (∀ j, s ≤ j → j < s + m → key (minGo key b (List.range' s m)) ≤ key j) ∧
      (minGo key b (List.range' s m) ≠ b → key (minGo key b (List.range' s m)) < key b) ∧
      (∀ j, s ≤ j → j < minGo key b (List.range' s m) →
        key (minGo key b (List.range' s m)) < key j) := by
  intro m
  induction m with
  | zero =>
    intro s b hb
    refine ⟨Or.inl rfl, le_refl _, ?_, ?_, ?_⟩
    · intro j h1 h2
      omega
    · intro h
      simp [List.range', minGo] at h
    · intro j h1 h2
      simp [List.range', minGo] at h2
      omega
  | succ m ih =>
    intro s b hb
    have hunf : minGo key b (List.range' s (m + 1)) =
        minGo key (if key s < key b then s else b) (List.range' (s + 1) m) := by
      simp [List.range', minGo]
    by_cases hsb : key s < key b
    · rw [if_pos hsb] at hunf
      obtain ⟨hmem, hle, hall, hstrict, hbefore⟩ := ih (s + 1) s (Nat.lt_succ_self s)
      rw [hunf]
      refine ⟨?_, ?_, ?_, ?_, ?_⟩
      · rcases hmem with h | ⟨h1, h2⟩
        · exact Or.inr ⟨le_of_eq h.symm, by omega⟩
        · exact Or.inr ⟨by omega, by omega⟩
      · exact le_trans hle (le_of_lt hsb)
      · intro j h1 h2
        rcases Nat.eq_or_lt_of_le h1 with rfl | h1'
        · exact hle
        · exact hall j h1' (by omega)
      · intro _
        exact lt_of_le_of_lt hle hsb
      · intro j h1 h2
        rcases Nat.eq_or_lt_of_le h1 with rfl | h1'
        · exact hstrict (by omega)
        · exact hbefore j h1' h2
    · rw [if_neg hsb] at hunf
      have hbs : key b ≤ key s := not_lt.mp hsb
      obtain ⟨hmem, hle, hall, hstrict, hbefore⟩ := ih (s + 1) b (by omega)
      rw [hunf]
      refine ⟨?_, ?_, ?_, ?_, ?_⟩
      · rcases hmem with h | ⟨h1, h2⟩
        · exact Or.inl h
        · exact Or.inr ⟨by omega, by omega⟩
      · exact hle
      · intro j h1 h2
        rcases Nat.eq_or_lt_of_le h1 with rfl | h1'
        · exact le_trans hle hbs
        · exact hall j h1' (by omega)
      · exact hstrict
      · intro j h1 h2
        rcases Nat.eq_or_lt_of_le h1 with rfl | h1'
        · have hne : minGo key b (List.range' (s + 1) m) ≠ b := by omega
          exact lt_of_lt_of_le (hstrict hne) hbs
        · exact hbefore j h1' h2

/-- Characterisation of `format_time_label`'s body: parse failure is a
`ValueError`; otherwise the instant is rendered at UTC+9 (a naive parse is
first stamped UTC, which leaves the stored instant unchanged). -/
theorem format_time_label_run_eq (s : String) (wd : Bool) :
    format_time_label_run s wd =
      match parseIso (strReplace s "Z" "+00:00") with
      | Option.none => .error .valueError
      | some dt => .ok (strftime ⟨dt.sec, some 540⟩ wd) := by
  unfold format_time_label_run fromisoformatE
  rcases hp : parseIso (strReplace s "Z" "+00:00") with _ | dt
  · simp [hp, Except.bind, bind]
  · rcases dt with ⟨sec, tz⟩
    cases tz <;> simp [hp, Except.bind, bind, astimezone]

/-- `format_time_label`'s body can only raise `ValueError`
(`fromisoformat`'s sole failure mode), which the handler catches. -/
theorem format_time_label_run_error (s : String) (wd : Bool) (e : PyExn)
    (h : format_time_label_run s wd = .error e) : e = .valueError := by
  rw [format_time_label_run_eq] at h
  rcases hp : parseIso (strReplace s "Z" "+00:00") with _ | dt
  · rw [hp] at h
    simpa using h.symm
  · rw [hp] at h
    simp at h

theorem record_missing_ok (d : Py) (req : List String) :
    ∃ ms, record_missing d req = .ok ms := by
  cases d with
  | dict kvs =>
    simp only [record_missing, isDict, ensure_keys_dict, if_true]
    exact ⟨_, rfl⟩
  | none => exact ⟨req, rfl⟩
  | bool b => exact ⟨req, rfl⟩
  | num q => exact ⟨req, rfl⟩
  | str s => exact ⟨req, rfl⟩
  | list xs => exact ⟨req, rfl⟩

theorem ob_check_ok (st : ℕ) (d : Py) : ∃ r, ob_check st d = .ok r := by
  unfold ob_check
  by_cases h : (st ≠ 200 || !isDict d) = true
  · rw [if_pos h]
    exact ⟨_, rfl⟩
  · rw [if_neg h]
    have hd : isDict d = true := by
      revert h
      cases isDict d <;> simp
    cases d with
    | dict kvs =>
      simp only [ensure_keys_dict, Except.bind, bind]
      exact ⟨_, rfl⟩
    | none => simp [isDict] at hd
    | bool b => simp [isDict] at hd
    | num q => simp [isDict] at hd
    | str s => simp [isDict] at hd
    | list xs => simp [isDict] at hd

theorem opp_check_ok (st : ℕ) (d : Py) : ∃ r, opp_check st d = .ok r := by
  unfold opp_check
  by_cases h : (st ≠ 200 || !isList d) = true
  · rw [if_pos h]
    exact ⟨_, rfl⟩
  · rw [if_neg h]
    cases d with
    | list xs =>
      cases xs with
      | nil => exact ⟨_, rfl⟩
      | cons x rest =>
        obtain ⟨ms, hms⟩ := record_missing_ok x opportunities_required
        simp only [hms, Except.bind, bind]
        exact ⟨_, rfl⟩
    | none => exact ⟨_, rfl⟩
    | bool b => exact ⟨_, rfl⟩
    | num q => exact ⟨_, rfl⟩
    | str s => exact ⟨_, rfl⟩
    | dict kvs => exact ⟨_, rfl⟩

theorem pf_check_ok (st : ℕ) (d : Py) : ∃ r, pf_check st d = .ok r := by
  unfold pf_check
  by_cases h : (st ≠ 200 || !isDict d) = true
  · rw [if_pos h]
    exact ⟨_, rfl⟩
  · rw [if_neg h]
    have hd : isDict d = true := by
      revert h
      cases isDict d <;> simp
    cases d with
    | dict kvs =>
      simp only [ensure_keys_dict, Except.bind, bind]
      exact ⟨_, rfl⟩
    | none => simp [isDict] at hd
    | bool b => simp [isDict] at hd
    | num q => simp [isDict] at hd
    | str s => simp [isDict] at hd
    | list xs => simp [isDict] at hd

/-- A permutation of a list leaves `List.any` unchanged. -/
theorem any_perm {α : Type} {l l' : List α} (h : l.Perm l') (p : α → Bool) :
    l.any p = l'.any p := by
  by_cases hl : l.any p = true
  · obtain ⟨x, hx, hpx⟩ := List.any_eq_true.1 hl
    rw [hl]
    exact (List.any_eq_true.2 ⟨x, h.mem_iff.1 hx, hpx⟩).symm
  · have hl' : l.any p = false := by
      revert hl
      cases l.any p <;> simp
    have hr : l'.any p = false := by
      rw [List.any_eq_false] at hl' ⊢
      intro x hx
      exact hl' x (h.mem_iff.2 hx)
    rw [hl', hr]

/-- `ensure_keys` on a list document never raises: Python `k in list` is
element membership. -/
theorem ensure_keys_list (xs : List Py) (keys : List String) :
    ensure_keys (Py.list xs) keys =
      .ok (keys.filter (fun k => !xs.any (fun x => pyEqStr x k))) := by
  induction keys with
  | nil => rfl
  | cons k rest ih =>
    simp only [ensure_keys, pyContains, ih, Except.bind, bind, List.filter]
    by_cases h : xs.any (fun x => pyEqStr x k) = true <;> simp [h]

/-- The dict membership test depends only on which keys occur, not on their
order or their values' identities. -/
theorem dict_any_key_eq (kvs : List (String × Py)) (k : String) :
    (kvs.any fun kv => decide (kv.1 = k)) = decide (k ∈ List.map Prod.fst kvs) := by
  by_cases h : k ∈ List.map Prod.fst kvs
  · obtain ⟨kv, hkv, rfl⟩ := List.mem_map.1 h
    rw [decide_eq_true h]
    exact List.any_eq_true.2 ⟨kv, hkv, by simp⟩
  · rw [decide_eq_false h]
    rw [List.any_eq_false]
    intro kv hkv
    simp only [decide_eq_true_eq]
    intro hfst
    exact h (List.mem_map.2 ⟨kv, hkv, hfst⟩)

/-- C3.  `missing_keys` (`ensure_keys`) on a mapping returns exactly the
subsequence of `required_keys` whose elements are absent from the document's
own keys: it equals the order-preserving filter by key absence, it is a
sublist of `required_keys`, it is invariant under reordering of the document's
entries, and it meets the two specified examples.  (No side effects: the
embedding is a pure function.) -/
theorem ensure_keys_spec :
    (∀ (kvs : List (String × Py)) (keys : List String),
        ensure_keys (Py.dict kvs) keys =
          .ok (keys.filter (fun k => decide (k ∉ List.map Prod.fst kvs)))) ∧
    (∀ (kvs : List (String × Py)) (keys ms : List String),
        ensure_keys (Py.dict kvs) keys = .ok ms → ms.Sublist keys) ∧
    (∀ (kvs kvs' : List (String × Py)) (keys : List String), kvs.Perm kvs' →
        ensure_keys (Py.dict kvs) keys = ensure_keys (Py.dict kvs') keys) ∧
    ensure_keys (Py.dict []) ["a", "b"] = .ok ["a", "b"] ∧
    ensure_keys (Py.dict [("a", Py.num 1)]) ["a", "b"] = .ok ["b"] := by
  have hfilter : ∀ (kvs : List (String × Py)) (keys : List String),
      ensure_keys (Py.dict kvs) keys =
        .ok (keys.filter (fun k => decide (k ∉ List.map Prod.fst kvs))) := by
    intro kvs keys
    rw [ensure_keys_dict]
    congr 1
    apply List.filter_congr
    intro k _
    rw [dict_any_key_eq]
    by_cases h : k ∈ List.map Prod.fst kvs <;> simp [h]
  refine ⟨hfilter, ?_, ?_, rfl, rfl⟩
  · intro kvs keys ms h
    rw [ensure_keys_dict] at h
    cases h
    exact List.filter_sublist keys
  · intro kvs kvs' keys hperm
    rw [ensure_keys_dict, ensure_keys_dict]
    congr 1
    apply List.filter_congr
    intro k _
    rw [any_perm hperm]

/-- C3 witness: the sublist clause and the reorder-invariance clause at
concrete inputs. -/
theorem ensure_keys_spec_witness :
    (["b"] : List String).Sublist ["a", "b"] ∧
    ensure_keys (Py.dict [("a", Py.num 1), ("b", Py.num 2)]) ["a", "b", "c"] =
      ensure_keys (Py.dict [("b", Py.num 2), ("a", Py.num 1)]) ["a", "b", "c"] :=
  ⟨ensure_keys_spec.2.1 [("a", Py.num 1)] ["a", "b"] ["b"] rfl,
   ensure_keys_spec.2.2.1 _ _ ["a", "b", "c"] (List.Perm.swap _ _ [])⟩

/-- C4.  The availability policy: `min(buyAmt, sellAmt)` is taken only when
both amounts are present and truthy; a zero or missing amount yields `None`
(unavailable), never `0`; specified examples included. -/
theorem minAvailable_policy :
    (∀ x y : ℚ, minAvailable (Py.num x) (Py.num y) =
        .ok (if x ≠ 0 ∧ y ≠ 0 then Py.num (min x y) else Py.none)) ∧
    (∀ b : Py, minAvailable Py.none b = .ok Py.none) ∧
    (∀ a : Py, minAvailable a Py.none = .ok Py.none) ∧
    (∀ x : ℚ, minAvailable (Py.num x) (Py.num 0) = .ok Py.none) ∧
    minAvailable (Py.num 3) (Py.num 0) = .ok Py.none ∧
    minAvailable (Py.num 3) (Py.num 5) = .ok (Py.num 3) ∧
    minAvailable Py.none (Py.num 5) = .ok Py.none := by
  refine ⟨minAvailable_num_num, minAvailable_none_left, minAvailable_none_right,
    ?_, rfl, rfl, rfl⟩
  intro x
  simp [minAvailable, Py.truthy]

/-- C7 counterexample: `missing_keys` applied directly to a non-mapping does
NOT report every required key as missing — on the list document `["a"]`,
Python's `in` is element membership, so `"a"` is found and only `"b"` is
reported, instead of the claimed `["a", "b"]`. -/
theorem ensure_keys_nonmapping_cex :
    ensure_keys (Py.list [Py.str "a"]) ["a", "b"] = .ok ["b"] ∧
    (["b"] : List String) ≠ ["a", "b"] :=
  ⟨rfl, by decide⟩

/-- C7 (amended).  The all-keys-missing behaviour for non-mapping documents
lives at the checker's call sites, whose `isinstance` guard bypasses
`ensure_keys` and reports the full required list; `ensure_keys` itself follows
Python membership semantics on a non-mapping: element membership for a list,
substring membership for a string, `TypeError` for a number or `None`. -/
theorem record_missing_nonmapping_spec :
    (∀ (d : Py) (req : List String), isDict d = false → record_missing d req = .ok req) ∧
    (∀ (xs : List Py) (req : List String),
        ensure_keys (Py.list xs) req =
          .ok (req.filter (fun k => !xs.any (fun x => pyEqStr x k)))) ∧
    ensure_keys (Py.str "ab") ["a", "z"] = .ok ["z"] ∧
    ensure_keys (Py.num 5) ["a"] = .error .typeError ∧
    ensure_keys Py.none ["a"] = .error .typeError := by
  refine ⟨?_, ensure_keys_list, rfl, rfl, rfl⟩
  intro d req h
  simp [record_missing, h]

/-- C7 witness: the call-site guard at a concrete non-mapping document. -/
theorem record_missing_nonmapping_spec_witness :
    record_missing (Py.list [Py.str "a"]) ["a", "b"] = .ok ["a", "b"] :=
  record_missing_nonmapping_spec.1 (Py.list [Py.str "a"]) ["a", "b"] rfl

/-- C2 counterexample: on a transport-level failure, `fetch_json`
(check_api.py) propagates the exception — it does not return `(0, null)`. -/
theorem fetch_json_transport_cex :
    fetch_json (fun _ => Option.none) .urlError = .error .urlError ∧
    (Except.error .urlError : Except PyExn (ℕ × Py)) ≠ .ok (0, Py.none) :=
  ⟨rfl, fun h => Except.noConfusion h⟩

/-- C2 (amended).  `request_json` (streamlit_app.py) returns `(0, null)` on a
transport-level failure (URLError) and on a malformed JSON body, and only in
that failure class — never for a well-formed HTTP response, in particular
never for a successful 200 response; `fetch_json` (check_api.py) catches only
`HTTPError`: a transport failure or malformed body propagates as an exception,
and it never reports status 0. -/
theorem request_json_status_zero_spec (parse : String → Option Py) :
    request_json parse .urlError = (0, Py.none) ∧
    (∀ (st : ℕ) (body : String), body ≠ "" → parse body = Option.none →
        request_json parse (.success st body) = (0, Py.none)) ∧
    (∀ o : HttpOutcome, httpWf o → (request_json parse o).1 = 0 →
        o = .urlError ∨
          ∃ st body, o = .success st body ∧ body ≠ "" ∧ parse body = Option.none) ∧
    (∀ (body : String) (v : Py), body ≠ "" → parse body = some v →
        request_json parse (.success 200 body) = (200, v)) ∧
    request_json parse (.success 200 "") = (200, Py.none) ∧
    fetch_json parse .urlError = .error .urlError ∧
    (∀ (st : ℕ) (body : String), body ≠ "" → parse body = Option.none →
        fetch_json parse (.success st body) = .error .valueError) ∧
    (∀ (o : HttpOutcome) (p : ℕ × Py), httpWf o → fetch_json parse o = .ok p →
        100 ≤ p.1) := by
  refine ⟨rfl, ?_, ?_, ?_, rfl, rfl, ?_, ?_⟩
  · intro st body hb hp
    simp [request_json, hb, hp]
  · intro o hwf h0
    cases o with
    | urlError => exact Or.inl rfl
    | httpError code body =>
      have h0' : code = 0 := by simpa [request_json] using h0
      simp only [httpWf] at hwf
      omega
    | success st body =>
      by_cases hb : body = ""
      · subst hb
        have h0' : st = 0 := by simpa [request_json] using h0
        simp only [httpWf] at hwf
        omega
      · rcases hp : parse body with _ | v
        · exact Or.inr ⟨st, body, rfl, hb, hp⟩
        · have h0' : st = 0 := by simpa [request_json, hb, hp] using h0
          simp only [httpWf] at hwf
          omega
  · intro body v hb hp
    simp [request_json, hb, hp]
  · intro st body hb hp
    simp [fetch_json, hb, hp]
  · intro o p hwf hok
    cases o with
    | urlError => exact absurd hok (by simp [fetch_json])
    | httpError code body =>
      simp only [fetch_json] at hok
      cases hok
      simpa [httpWf] using hwf
    | success st body =>
      by_cases hb : body = ""
      · subst hb
        simp only [fetch_json, if_pos rfl] at hok
        cases hok
        simpa [httpWf] using hwf
      · rcases hp : parse body with _ | v
        · simp [fetch_json, hb, hp] at hok
        · simp only [fetch_json, if_neg hb, hp] at hok
          cases hok
          simpa [httpWf] using hwf

/-- C2 witness: a malformed body yields `(0, null)` from `request_json` and a
propagating `ValueError` from `fetch_json`. -/
theorem request_json_status_zero_spec_witness :
    request_json (fun _ => Option.none) (.success 404 "oops") = (0, Py.none) ∧
    fetch_json (fun _ => Option.none) (.success 404 "oops") = .error .valueError :=
  ⟨(request_json_status_zero_spec (fun _ => Option.none)).2.1 404 "oops" (by decide) rfl,
   (request_json_status_zero_spec (fun _ => Option.none)).2.2.2.2.2.2.1 404 "oops" (by decide) rfl⟩

/-- C1.  `get_or_compute`: on a cache hit (stored generation equals the given
one) the stored value is returned and the compute function is not invoked; on
a miss (no entry, or a differing generation) the compute function runs exactly
once, `(generation, result)` is stored under the key, and the result is
returned — so a second call with the same `(key, generation)` returns the
stored result without recomputing (one invocation across both calls), and a
subsequent call with a new generation recomputes. -/
theorem get_or_compute_spec {α : Type} (c : Cache α) (k : String) (g g' : ℤ)
    (f f₂ f₃ : Unit → α) :
    (dget c.vers k = some g →
        get_or_compute c k g f = (dget c.vals k, c, 0)) ∧
    (dget c.vers k ≠ some g →
        get_or_compute c k g f =
          (some (f ()), ⟨dset c.vals k (f ()), dset c.vers k g⟩, 1) ∧
        dget (dset c.vals k (f ())) k = some (f ()) ∧
        dget (dset c.vers k g) k = some g ∧
        get_or_compute (⟨dset c.vals k (f ()), dset c.vers k g⟩ : Cache α) k g f₂ =
          (some (f ()), ⟨dset c.vals k (f ()), dset c.vers k g⟩, 0) ∧
        (g' ≠ g →
          get_or_compute (⟨dset c.vals k (f ()), dset c.vers k g⟩ : Cache α) k g' f₃ =
            (some (f₃ ()),
             ⟨dset (dset c.vals k (f ())) k (f₃ ()), dset (dset c.vers k g) k g'⟩, 1))) := by
  constructor
  · intro h
    rw [get_or_compute, if_neg (by simp [h])]
  · intro h
    refine ⟨?_, dget_dset_self _ _ _, dget_dset_self _ _ _, ?_, ?_⟩
    · rw [get_or_compute, if_pos h]
    · rw [get_or_compute, if_neg (by simp [dget_dset_self])]
      simp [dget_dset_self]
    · intro hg'
      rw [get_or_compute, if_pos (by simp [dget_dset_self, Ne.symm hg'])]

/-- C1 witness: a fresh cache, two calls at generation 0, then one at
generation 1. -/
theorem get_or_compute_spec_witness :
    get_or_compute (emptyCache ℕ) "ob" 0 (fun _ => 5) =
      (some 5, ⟨[("ob", 5)], [("ob", 0)]⟩, 1) ∧
    get_or_compute (⟨[("ob", 5)], [("ob", 0)]⟩ : Cache ℕ) "ob" 0 (fun _ => 6) =
      (some 5, ⟨[("ob", 5)], [("ob", 0)]⟩, 0) ∧
    get_or_compute (⟨[("ob", 5)], [("ob", 0)]⟩ : Cache ℕ) "ob" 1 (fun _ => 7) =
      (some 7, ⟨[("ob", 7)], [("ob", 1)]⟩, 1) := by
  obtain ⟨h1, -, -, h2, h3⟩ :=
    (get_or_compute_spec (emptyCache ℕ) "ob" 0 1 (fun _ => 5) (fun _ => 6) (fun _ => 7)).2
      (by simp [emptyCache, dget])
  exact ⟨h1, h2, h3 (by decide)⟩

/-- C9.  Frame property of `get_or_compute`: the cached value and the stored
generation of every key other than the accessed one are unchanged, and no
compute function other than the one passed for this key is invoked (the
operation touches at most its own key's entries). -/
theorem get_or_compute_frame {α : Type} (c : Cache α) (k k' : String) (g : ℤ)
    (f : Unit → α) (h : k' ≠ k) :
    dget (get_or_compute c k g f).2.1.vals k' = dget c.vals k' ∧
    dget (get_or_compute c k g f).2.1.vers k' = dget c.vers k' := by
  unfold get_or_compute
  by_cases hc : dget c.vers k ≠ some g
  · rw [if_pos hc]
    exact ⟨dget_dset_ne _ _ _ _ h, dget_dset_ne _ _ _ _ h⟩
  · rw [if_neg hc]
    exact ⟨rfl, rfl⟩

/-- C9 witness: computing under key `"a"` leaves key `"b"` untouched. -/
theorem get_or_compute_frame_witness :
    dget (get_or_compute (⟨[("b", 9)], [("b", 4)]⟩ : Cache ℕ) "a" 0 (fun _ => 1)).2.1.vals "b" =
      some 9 ∧
    dget (get_or_compute (⟨[("b", 9)], [("b", 4)]⟩ : Cache ℕ) "a" 0 (fun _ => 1)).2.1.vers "b" =
      some 4 := by
  obtain ⟨h1, h2⟩ :=
    get_or_compute_frame (⟨[("b", 9)], [("b", 4)]⟩ : Cache ℕ) "a" "b" 0 (fun _ => 1) (by decide)
  exact ⟨by rw [h1]; rfl, by rw [h2]; rfl⟩

theorem ratAbs_eq_abs (q : ℚ) : ratAbs q = |q| := by
  rcases lt_or_ge q 0 with h | h
  · simp [ratAbs, h, abs_of_neg h]
  · simp [ratAbs, not_lt.mpr h, abs_of_nonneg h]

/-- C5.  The highlight index returned for a non-empty level list and a present
target minimises the absolute distance of the level price to the target, ties
resolving to the lowest index (the first minimum of a left-to-right scan); an
empty list or an absent target yields no match; specified examples included. -/
theorem nearestLevel_spec :
    (∀ (prices : List ℚ) (t : ℚ) (i : ℕ), nearestLevel prices (some t) = some i →
        i < prices.length ∧
        (∀ j, j < prices.length →
          |prices.getD i 0 - t| ≤ |prices.getD j 0 - t|) ∧
        (∀ j, j < i → |prices.getD i 0 - t| < |prices.getD j 0 - t|)) ∧
    (∀ (prices : List ℚ) (t : ℚ), prices ≠ [] →
        ∃ i, nearestLevel prices (some t) = some i) ∧
    (∀ prices : List ℚ, nearestLevel prices Option.none = Option.none) ∧
    (∀ t : ℚ, nearestLevel [] (some t) = Option.none) ∧
    nearestLevel [100, 105, 110] (some 106) = some 1 ∧
    nearestLevel [100, 110] (some 105) = some 0 := by
  refine ⟨?_, ?_, fun _ => rfl, fun _ => rfl, ?_, ?_⟩
  · intro prices t i h
    simp only [nearestLevel] at h
    rcases hn : prices.length with _ | m
    · rw [hn] at h
      simp [pyMinIndex] at h
    · rw [hn, List.range_eq_range', List.range'_succ] at h
      simp only [Nat.zero_add, pyMinIndex, Option.some.injEq] at h
      subst h
      obtain ⟨hmem, hle, hall, hstrict, hbefore⟩ :=
        minGo_range'_spec (fun j => ratAbs (prices.getD j 0 - t)) m 1 0 (by omega)
      simp only [← ratAbs_eq_abs]
      refine ⟨?_, ?_, ?_⟩
      · rcases hmem with h0 | ⟨h1, h2⟩ <;> omega
      · intro j hj
        rcases Nat.eq_zero_or_pos j with rfl | hj1
        · exact hle
        · exact hall j hj1 (by omega)
      · intro j hj
        rcases Nat.eq_zero_or_pos j with rfl | hj1
        · exact hstrict (by omega)
        · exact hbefore j hj1 hj
  · intro prices t hne
    rcases prices with _ | ⟨p, ps⟩
    · exact absurd rfl hne
    · refine ⟨minGo (fun j => ratAbs ((p :: ps).getD j 0 - t)) 0 (List.range' 1 ps.length), ?_⟩
      simp only [nearestLevel, List.length_cons]
      rw [List.range_eq_range', List.range'_succ]
      rfl
  · norm_num [nearestLevel, pyMinIndex, minGo, ratAbs, List.getD,
      (by decide : List.range 3 = [0, 1, 2])]
  · norm_num [nearestLevel, pyMinIndex, minGo, ratAbs, List.getD,
      (by decide : List.range 2 = [0, 1])]

/-- C5 witness: the minimising index for the first example is in range. -/
theorem nearestLevel_spec_witness : 1 < ([100, 105, 110] : List ℚ).length :=
  (nearestLevel_spec.1 [100, 105, 110] 106 1 nearestLevel_spec.2.2.2.2.1).1

/-- C10.  `format_time_label` is total on strings: the body's only exception
class is `ValueError`, which the handler catches, so every input yields a
string; an unparseable timestamp (after replacing `Z` with `+00:00`) is
returned unchanged, and a parseable one is rendered at UTC+9 (a naive parse is
first stamped UTC); hence an arbitrary or empty timestamp cannot abort row
building.  Concrete cases: a `Z`-suffixed UTC instant, a non-timestamp, and
the empty string. -/
theorem format_time_label_total :
    (∀ (s : String) (wd : Bool), ∃ r, format_time_labelE s wd = .ok r ∧
        format_time_label s wd = r ∧
        (parseIso (strReplace s "Z" "+00:00") = Option.none → r = s) ∧
        (∀ dt, parseIso (strReplace s "Z" "+00:00") = some dt →
          r = strftime ⟨dt.sec, some 540⟩ wd)) ∧
    format_time_label "2024-01-01T00:00:00Z" false = "09:00:00" ∧
    format_time_label "not an ISO timestamp" true = "not an ISO timestamp" ∧
    format_time_label "" false = "" := by
  refine ⟨?_, rfl, rfl, rfl⟩
  intro s wd
  rcases hp : parseIso (strReplace s "Z" "+00:00") with _ | dt
  · refine ⟨s, ?_, ?_, fun _ => rfl, ?_⟩
    · unfold format_time_labelE
      rw [format_time_label_run_eq, hp]
    · unfold format_time_label format_time_labelE
      rw [format_time_label_run_eq, hp]
    · intro dt hdt
      cases hdt
  · refine ⟨strftime ⟨dt.sec, some 540⟩ wd, ?_, ?_, ?_, ?_⟩
    · unfold format_time_labelE
      rw [format_time_label_run_eq, hp]
    · unfold format_time_label format_time_labelE
      rw [format_time_label_run_eq, hp]
    · intro hnone
      cases hnone
    · intro dt' hdt
      cases hdt
      rfl

/-- C10 witness: the concrete UTC+9 rendering. -/
theorem format_time_label_total_witness :
    format_time_label "2024-01-01T00:00:00Z" false = "09:00:00" :=
  format_time_label_total.2.1

/-- C6 counterexample: an invalid (truthy, non-numeric) amount does not leave
just one field blank — `min("x", 5)` raises `TypeError`, the loop aborts, and
every record of the batch is dropped. -/
theorem build_rows_invalid_amount_cex :
    build_opportunity_rows
        [Py.dict [("buy_available_amount", Py.str "x"), ("sell_available_amount", Py.num 5)]] =
      .error .typeError ∧
    (Except.error .typeError : Except PyExn (List OppRow)) ≠ .ok [] :=
  ⟨rfl, fun h => Except.noConfusion h⟩

/-- C6 (amended).  For records whose amount/price/spread-money fields are
numbers or absent (the `OpportunityRaw` shape), `build_opportunity_rows`
yields exactly one row per record in input order; within a row, `spread_bps`
depends only on `spread_pct` (absent or non-numeric gives `None`), prices pass
through unchanged (absent stays `None`, never a number), unavailable amounts
leave size and profit as the `—` placeholder (never zero), and available
amounts and prices yield the derived size even if other inputs are missing.
A truthy non-numeric amount, however, raises `TypeError` and aborts the whole
batch. -/
theorem build_opportunity_rows_spec :
    (∀ opps : List Py, (∀ o ∈ opps, oppWf o = true) →
        ∃ rows, build_opportunity_rows opps = .ok rows ∧
          rows.length = opps.length ∧
          List.Forall₂ (fun o r => buildRow o = .ok r) opps rows) ∧
    (∀ kvs : List (String × Py), oppWf (Py.dict kvs) = true →
        ∃ row, buildRow (Py.dict kvs) = .ok row ∧
          row.spread_bps = bpsDisplay (pyGet kvs "spread_pct" Py.none) ∧
          row.buy_price = pyGet kvs "buy_price" Py.none ∧
          row.sell_price = pyGet kvs "sell_price" Py.none ∧
          (((pyGet kvs "buy_available_amount" Py.none).truthy &&
              (pyGet kvs "sell_available_amount" Py.none).truthy) = false →
            row.est_size = Py.str "—" ∧ row.profit = Py.str "—") ∧
          (∀ a b p1 p2 : ℚ,
            pyGet kvs "buy_available_amount" Py.none = Py.num a →
            pyGet kvs "sell_available_amount" Py.none = Py.num b →
            pyGet kvs "buy_price" Py.none = Py.num p1 →
            pyGet kvs "sell_price" Py.none = Py.num p2 →
            a ≠ 0 → b ≠ 0 → p1 ≠ 0 → p2 ≠ 0 →
            row.est_size =
              Py.num ((truncQ (pyRound (min a b * min p1 p2) 0) : ℤ) : ℚ))) := by
  constructor
  · intro opps h
    obtain ⟨rows, h1, h2⟩ := build_rows_wf opps h
    exact ⟨rows, h1, h2.length_eq.symm, h2⟩
  · intro kvs hwf
    obtain ⟨h1, h2, h3, h4, h5⟩ := oppWf_fields kvs hwf
    obtain ⟨m, hm, hmn, hmnone⟩ := minAvailable_wf _ _ h1 h2
    obtain ⟨e, he, hen, -⟩ := estSizeJpy_wf m _ _ hmn h3 h4
    obtain ⟨p, hp, -⟩ := expectedProfitJpy_wf _ m h5 hmn
    refine ⟨_, buildRow_eq kvs m e p hm he hp, rfl, rfl, rfl, ?_, ?_⟩
    · intro hfalse
      have hm0 : m = Py.none := by
        apply hmnone
        rintro ⟨ha, hb⟩
        rw [ha, hb] at hfalse
        cases hfalse
      subst hm0
      have he0 : Py.none = e := by
        have hx := estSizeJpy_not_avail Py.none (pyGet kvs "buy_price" Py.none)
          (pyGet kvs "sell_price" Py.none) (by simp [Py.truthy])
        rw [hx] at he
        exact (Except.ok.injEq _ _).mp he
      have hp0 : Py.none = p := by
        have hx := expectedProfitJpy_not_avail (pyGet kvs "spread_jpy" Py.none) Py.none
          (by simp [Py.truthy])
        rw [hx] at hp
        exact (Except.ok.injEq _ _).mp hp
      rw [← he0, ← hp0]
      exact ⟨rfl, rfl⟩
    · intro a b p1 p2 ha hb hpp1 hpp2 ha0 hb0 hp10 hp20
      have hm' : minAvailable (pyGet kvs "buy_available_amount" Py.none)
          (pyGet kvs "sell_available_amount" Py.none) = .ok (Py.num (min a b)) := by
        rw [ha, hb, minAvailable_num_num]
        simp [ha0, hb0]
      have hm0 : m = Py.num (min a b) := by
        rw [hm] at hm'
        exact (Except.ok.injEq _ _).mp hm'
      have hmin0 : min a b ≠ 0 := by
        rcases min_choice a b with h | h <;> rw [h] <;> assumption
      have he' : estSizeJpy (Py.num (min a b)) (pyGet kvs "buy_price" Py.none)
          (pyGet kvs "sell_price" Py.none) =
            .ok (Py.num (pyRound (min a b * min p1 p2) 0)) := by
        rw [hpp1, hpp2]
        exact estSizeJpy_nums _ _ _ hmin0 hp10 hp20
      have he0 : e = Py.num (pyRound (min a b * min p1 p2) 0) := by
        rw [hm0] at he
        rw [he] at he'
        exact (Except.ok.injEq _ _).mp he'
      rw [he0]
      rfl

/-- C6 witness: a well-typed record maps to a row batch successfully. -/
theorem build_opportunity_rows_spec_witness :
    (build_opportunity_rows [Py.dict []]).isOk = true := by
  obtain ⟨rows, hrows, -, -⟩ := build_opportunity_rows_spec.1 [Py.dict []] (by
    intro o ho
    rw [List.mem_singleton] at ho
    subst ho
    rfl)
  rw [hrows]
  rfl

/-- C8 counterexample: a transport-level failure on the first endpoint aborts
the run — no check line is printed, the remaining endpoint checks never
execute, and the process dies on an uncaught exception instead of returning a
counted exit status. -/
theorem test_arbgui_abort_cex :
    test_arbgui (fun _ => Option.none) .urlError (.success 200 "") (.success 200 "") =
      ([], .error .urlError) ∧
    checker_exit (fun _ => Option.none) .urlError (.success 200 "") (.success 200 "") =
      .error .urlError :=
  ⟨rfl, rfl⟩

/-- C8 (amended).  Provided every fetch completes without raising (fetch_json
catches only `HTTPError`), each of the three endpoint checks executes exactly
once regardless of whether earlier checks failed, producing one log line each,
the failure counts add up, and the exit code is 0 exactly when the cumulative
count is zero and 1 otherwise.  A transport-level exception, by contrast,
aborts the remaining checks (see the counterexample). -/
theorem test_arbgui_run_spec (parse : String → Option Py) (obO oppO pfO : HttpOutcome)
    (r1 r2 r3 : ℕ × Py)
    (h1 : fetch_json parse obO = .ok r1)
    (h2 : fetch_json parse oppO = .ok r2)
    (h3 : fetch_json parse pfO = .ok r3) :
    ∃ c1 c2 c3,
      ob_check r1.1 r1.2 = .ok c1 ∧
      opp_check r2.1 r2.2 = .ok c2 ∧
      pf_check r3.1 r3.2 = .ok c3 ∧
      test_arbgui parse obO oppO pfO = ([c1.2, c2.2, c3.2], .ok (c1.1 + c2.1 + c3.1)) ∧
      (checker_exit parse obO oppO pfO = .ok 0 ↔ c1.1 + c2.1 + c3.1 = 0) ∧
      (checker_exit parse obO oppO pfO = .ok 0 ∨
        checker_exit parse obO oppO pfO = .ok 1) := by
  obtain ⟨st1, d1⟩ := r1
  obtain ⟨st2, d2⟩ := r2
  obtain ⟨st3, d3⟩ := r3
  obtain ⟨c1, hc1⟩ := ob_check_ok st1 d1
  obtain ⟨c2, hc2⟩ := opp_check_ok st2 d2
  obtain ⟨c3, hc3⟩ := pf_check_ok st3 d3
  have ht : test_arbgui parse obO oppO pfO =
      ([c1.2, c2.2, c3.2], .ok (c1.1 + c2.1 + c3.1)) := by
    obtain ⟨f1, l1⟩ := c1
    obtain ⟨f2, l2⟩ := c2
    obtain ⟨f3, l3⟩ := c3
    simp only [test_arbgui, h1, h2, h3, hc1, hc2, hc3]
  refine ⟨c1, c2, c3, hc1, hc2, hc3, ht, ?_, ?_⟩
  · unfold checker_exit
    rw [ht]
    by_cases h : c1.1 + c2.1 + c3.1 = 0 <;> simp [h]
  · unfold checker_exit
    rw [ht]
    by_cases h : c1.1 + c2.1 + c3.1 = 0 <;> simp [h]

/-- C8 witness: three completed fetches always drive the run to a counted exit
status of 0 or 1. -/
theorem test_arbgui_run_spec_witness :
    checker_exit (fun _ => Option.none) (.success 200 "") (.success 200 "") (.success 200 "") =
      .ok 0 ∨
    checker_exit (fun _ => Option.none) (.success 200 "") (.success 200 "") (.success 200 "") =
      .ok 1 := by
  obtain ⟨c1, c2, c3, -, -, -, -, -, hor⟩ :=
    test_arbgui_run_spec (fun _ => Option.none) (.success 200 "") (.success 200 "")
      (.success 200 "") (200, Py.none) (200, Py.none) (200, Py.none) rfl rfl rfl
  exact hor
